import Mathlib

/-!
Verification of the incremental-load core of the `ETL-pipeline` repository
(`src/load_lambda/load.py` and `src/load_lambda/load_utils.py`) against its
design specification.

The Python code is shallowly embedded: pandas dataframes become ordered
column-name lists plus row lists, the S3 bucket becomes a list of keyed
objects, `datetime.strftime`/`strptime` become character-level functions on
`List Char`, and the warehouse write loops become trace-producing functions
with injected per-table faults.
-/

namespace ETL

/-! ## Timestamps

`load.py` writes the watermark with `datetime.now().strftime("%Y-%m-%d %H:%M:%S")`
(a naive timestamp, no UTC offset); `load_utils.read_parquets_from_s3` parses the
marker content with `datetime.strptime(last_load, "%Y-%m-%d %H:%M:%S%z")`
(offset required).  We model naive timestamps as six calendar fields and
offset-aware timestamps as a naive timestamp plus an offset in minutes. -/

structure NaiveTs where
  year : Nat
  month : Nat
  day : Nat
  hour : Nat
  minute : Nat
  second : Nat
  deriving DecidableEq, Repr

structure AwareTs where
  dt : NaiveTs
  offMinutes : Int
  deriving DecidableEq, Repr

/-- Calendar validity as enforced by Python's `datetime` constructor
(`MINYEAR = 1`, `MAXYEAR = 9999`, day checked against the month length). -/
def isLeapYear (y : Nat) : Bool :=
  (y % 4 == 0 && y % 100 != 0) || y % 400 == 0

def daysInMonth (y m : Nat) : Nat :=
  if m == 2 then (if isLeapYear y then 29 else 28)
  else if m == 4 || m == 6 || m == 9 || m == 11 then 30
  else 31

def NaiveTs.Valid (t : NaiveTs) : Prop :=
  1 ≤ t.year ∧ t.year ≤ 9999 ∧ 1 ≤ t.month ∧ t.month ≤ 12 ∧
  1 ≤ t.day ∧ t.day ≤ daysInMonth t.year t.month ∧
  t.hour ≤ 23 ∧ t.minute ≤ 59 ∧ t.second ≤ 59

instance (t : NaiveTs) : Decidable t.Valid := by
  unfold NaiveTs.Valid; infer_instance

/-- Lexicographic order on the six fields: for naive timestamps this is
exactly chronological order, the order Python's `datetime` comparison uses. -/
def NaiveTs.le (a b : NaiveTs) : Prop :=
  Prod.Lex (· < ·) (Prod.Lex (· < ·) (Prod.Lex (· < ·) (Prod.Lex (· < ·)
    (Prod.Lex (· < ·) (· ≤ ·)))))
    (a.year, a.month, a.day, a.hour, a.minute, a.second)
    (b.year, b.month, b.day, b.hour, b.minute, b.second)

instance (a b : NaiveTs) : Decidable (a.le b) := by
  unfold NaiveTs.le; infer_instance

/-! ### Zero-padded decimal rendering (`strftime` field output) -/

/-- `digitsPad w n`: the `w`-character zero-padded decimal rendering of `n`,
most significant digit first — the output of a `%0wd`-style strftime field. -/
def digitsPad : Nat → Nat → List Char
  | 0, _ => []
  | w + 1, n => Char.ofNat (48 + n / 10 ^ w) :: digitsPad w (n % 10 ^ w)

/-- `datetime.strftime(ts, "%Y-%m-%d %H:%M:%S")` on a naive timestamp. -/
def strftimeYmdHMS (t : NaiveTs) : String :=
  String.mk
    (digitsPad 4 t.year ++ ('-' :: (digitsPad 2 t.month ++ ('-' :: (digitsPad 2 t.day
      ++ (' ' :: (digitsPad 2 t.hour ++ (':' :: (digitsPad 2 t.minute
      ++ (':' :: digitsPad 2 t.second))))))))))

/-! ### `strptime` with format `"%Y-%m-%d %H:%M:%S%z"`

Modelled after CPython's `_strptime`: the directives match fixed runs of
digits (zero-padded two-digit fields for `%m %d %H %M %S`, four for `%Y`),
literals match themselves, `%z` requires a non-empty offset
(`Z` or `±HH[:]MM`), the whole string must be consumed, and the matched
fields must form a valid `datetime`.  Failure (Python's `ValueError` /
regex mismatch) is `none`. -/

/-- Consume exactly `w` decimal digits, returning their value and the rest. -/
def takeDigits : Nat → List Char → Nat → Option (Nat × List Char)
  | 0, cs, acc => some (acc, cs)
  | _ + 1, [], _ => none
  | w + 1, c :: cs, acc =>
    if 48 ≤ c.toNat ∧ c.toNat ≤ 57 then
      takeDigits w cs (acc * 10 + (c.toNat - 48))
    else none

/-- Consume one expected literal character. -/
def takeLit (c : Char) : List Char → Option (List Char)
  | [] => none
  | c' :: cs => if c' = c then some cs else none

/-- Parse the `%z` directive: `Z`, or a sign followed by `HH`, an optional
`:`, and `MM`; the offset in minutes.  An empty remainder does not match. -/
def parseOffset : List Char → Option (Int × List Char)
  | [] => none
  | 'Z' :: cs => some (0, cs)
  | c :: cs =>
    if c = '+' ∨ c = '-' then
      match takeDigits 2 cs 0 with
      | none => none
      | some (hh, cs1) =>
        let cs1' := match cs1 with
          | ':' :: rest => rest
          | _ => cs1
        match takeDigits 2 cs1' 0 with
        | none => none
        | some (mm, cs2) =>
          if hh ≤ 23 ∧ mm ≤ 59 then
            let mag : Int := (hh * 60 + mm : Nat)
            some (if c = '-' then -mag else mag, cs2)
          else none
    else none

/-- `datetime.strptime(s, "%Y-%m-%d %H:%M:%S%z")`; `none` models `ValueError`. -/
def strptimeYmdHMSz (s : String) : Option AwareTs :=
  match takeDigits 4 s.toList 0 with
  | none => none
  | some (y, r1) =>
  match takeLit '-' r1 with
  | none => none
  | some r2 =>
  match takeDigits 2 r2 0 with
  | none => none
  | some (mo, r3) =>
  match takeLit '-' r3 with
  | none => none
  | some r4 =>
  match takeDigits 2 r4 0 with
  | none => none
  | some (d, r5) =>
  match takeLit ' ' r5 with
  | none => none
  | some r6 =>
  match takeDigits 2 r6 0 with
  | none => none
  | some (h, r7) =>
  match takeLit ':' r7 with
  | none => none
  | some r8 =>
  match takeDigits 2 r8 0 with
  | none => none
  | some (mi, r9) =>
  match takeLit ':' r9 with
  | none => none
  | some r10 =>
  match takeDigits 2 r10 0 with
  | none => none
  | some (sec, r11) =>
  match parseOffset r11 with
  | none => none
  | some (off, r12) =>
    if r12 = [] then
      let t : NaiveTs := ⟨y, mo, d, h, mi, sec⟩
      if t.Valid then some ⟨t, off⟩ else none
    else none

/-! ## The run orchestrator (`load.py`, function `load`)

`load` reads the marker object `last_load.txt` (a missing object —
`NoSuchKey` — is tolerated), then unconditionally overwrites it with
`datetime.now().strftime("%Y-%m-%d %H:%M:%S")`.  Any unhandled exception
before the `put_object` call (a non-`NoSuchKey` `ClientError` from
`get_object`, a body-decode failure, …) propagates and aborts the run with
the marker object untouched; we inject such a fault with `faultBeforePut`. -/

structure LoadResult where
  succeeded : Bool
  marker : Option String
  deriving DecidableEq, Repr

def load (marker : Option String) (faultBeforePut : Bool) (now : NaiveTs) :
    LoadResult :=
  if faultBeforePut then ⟨false, marker⟩
  else ⟨true, some (strftimeYmdHMS now)⟩

/-! ## Python string helpers

`needle in hay` (substring test) and `s.split(sep)[0]` (the part of `s`
before the first occurrence of `sep`). -/

/-- Does `hay` start with `needle`? -/
def leadsList : List Char → List Char → Bool
  | [], _ => true
  | _ :: _, [] => false
  | c :: cs, h :: hs => c = h && leadsList cs hs

/-- Does `needle` occur as a contiguous substring of `hay`? -/
def subList (needle : List Char) : List Char → Bool
  | [] => leadsList needle []
  | c :: cs => leadsList needle (c :: cs) || subList needle cs

/-- Python `needle in hay` on strings. -/
def strContains (hay needle : String) : Bool :=
  subList needle.toList hay.toList

/-- Python `s.split(sep)[0]`: everything before the first `sep`. -/
def splitHead (sep : Char) (s : String) : String :=
  String.mk (s.toList.takeWhile (fun c => c ≠ sep))

/-! ## Instants

Python compares offset-aware datetimes chronologically.  `toInstant` maps an
aware timestamp to seconds on a common timeline (days from the civil
calendar via the standard era-based algorithm, all divisions on
non-negative operands). -/

def daysFromCivil (y m d : Int) : Int :=
  let y' := if m ≤ 2 then y - 1 else y
  let era := (if 0 ≤ y' then y' else y' - 399) / 400
  let yoe := y' - era * 400
  let mp := if 2 < m then m - 3 else m + 9
  let doy := (153 * mp + 2) / 5 + d - 1
  let doe := yoe * 365 + yoe / 4 - yoe / 100 + doy
  era * 146097 + doe - 719468

def toInstant (t : AwareTs) : Int :=
  daysFromCivil t.dt.year t.dt.month t.dt.day * 86400
    + t.dt.hour * 3600 + t.dt.minute * 60 + t.dt.second
    - t.offMinutes * 60

/-- Python `<` on two offset-aware datetimes. -/
def awareLt (a b : AwareTs) : Bool :=
  toInstant a < toInstant b

/-! ## Tabular frames and Python values

A pandas `DataFrame` is embedded as an ordered column-name list plus a row
list (each row positionally aligned with the columns).  Cell values carry
the cases the pipeline distinguishes: integers, strings, dates, and the
null marker (`NaN`/`NaT`/`None`). -/

inductive PyVal where
  | int (i : Int)
  | str (s : String)
  | date (y m d : Nat)
  | null
  deriving DecidableEq, Repr

structure Frame where
  cols : List String
  rows : List (List PyVal)
  deriving DecidableEq, Repr

/-- Python exception classes the embedded code can raise. -/
inductive PyErr where
  | typeError
  | valueError
  | keyError
  | indexError
  | clientError
  | warehouseError
  deriving DecidableEq, Repr

/-! ## The change detector (`load_utils.read_parquets_from_s3`)

The staging store listing is a list of objects (key, last-modified,
payload bytes).  `pd.read_parquet(BytesIO(data))` is an external
deserializer and is abstracted as a `decode : String → Frame` parameter. -/

structure S3Object where
  key : String
  lastModified : AwareTs
  payload : String
  deriving DecidableEq, Repr

/-- `s3_client.get_object(Bucket=…, Key=key)["Body"].read()`: the payload of
the first listed object with key `key`; `none` models `NoSuchKey`. -/
def getObjectPayload (contents : List S3Object) (key : String) : Option String :=
  (contents.find? (fun o => o.key = key)).map (fun o => o.payload)

/-- The `new_files` comprehension: objects strictly newer than the watermark
whose key does not contain `".txt"` (the `last_load` truthiness test is
vacuous once it is a parsed datetime). -/
def newFiles (wm : AwareTs) (contents : List S3Object) : List S3Object :=
  contents.filter (fun file => awareLt wm file.lastModified
    && !(strContains file.key ".txt"))

/-- `dim_table_names`: `[obj["Key"].split(".")[0] for obj in new_files if "dim_" in obj["Key"]]`. -/
def dimTableNames (wm : AwareTs) (contents : List S3Object) : List String :=
  ((newFiles wm contents).filter (fun o => strContains o.key "dim_")).map
    (fun o => splitHead '.' o.key)

/-- `fact_table_names`: `[obj["Key"].split(".")[0] for obj in new_files if "fact_" in obj["Key"]]`. -/
def factTableNames (wm : AwareTs) (contents : List S3Object) : List String :=
  ((newFiles wm contents).filter (fun o => strContains o.key "fact_")).map
    (fun o => splitHead '.' o.key)

/-- `dim_parquet_files_list`: keys of the new files containing `"dim_"`. -/
def dimParquetFiles (wm : AwareTs) (contents : List S3Object) : List String :=
  ((newFiles wm contents).filter (fun o => strContains o.key "dim_")).map
    (fun o => o.key)

/-- `fact_parquet_files_list`: keys of the new files containing `"fact_"`. -/
def factParquetFiles (wm : AwareTs) (contents : List S3Object) : List String :=
  ((newFiles wm contents).filter (fun o => strContains o.key "fact_")).map
    (fun o => o.key)

/-- The per-key fetch-and-deserialize loop body: `get_object` then
`pd.read_parquet`; a missing key is a `ClientError`. -/
def fetchFrames (decode : String → Frame) (contents : List S3Object) :
    List String → Except PyErr (List Frame)
  | [] => .ok []
  | key :: keys =>
    match getObjectPayload contents key with
    | none => .error .clientError
    | some payload =>
      match fetchFrames decode contents keys with
      | .error e => .error e
      | .ok dfs => .ok (decode payload :: dfs)

/-- `read_parquets_from_s3(s3_client, last_load, bucket)`.  `lastLoad` is the
marker content (`none` embeds Python `None`); `datetime.strptime(None, …)`
raises `TypeError` and `strptime` on a non-matching string raises
`ValueError`, both re-raised by the function's `except` blocks. -/
def read_parquets_from_s3 (decode : String → Frame) (contents : List S3Object)
    (lastLoad : Option String) :
    Except PyErr (List String × List String × List Frame × List Frame) :=
  if contents.isEmpty then .ok ([], [], [], []) else
  match lastLoad with
  | none => .error .typeError
  | some s =>
    match strptimeYmdHMSz s with
    | none => .error .valueError
    | some wm =>
      if (newFiles wm contents).isEmpty then .ok ([], [], [], []) else
      match fetchFrames decode contents (dimParquetFiles wm contents) with
      | .error e => .error e
      | .ok dimDfs =>
        match fetchFrames decode contents (factParquetFiles wm contents) with
        | .error e => .error e
        | .ok factDfs =>
          .ok (dimTableNames wm contents, factTableNames wm contents,
            dimDfs, factDfs)

/-! ## The schema-aware reconciler (`load_utils.upload_dataframe_to_table`)

Warehouse column types are the cases the conversion loop distinguishes by
`isinstance(col_type, DateTime)` / `col_type.__class__.__name__`:
`DateTime`, `Integer`, `Float`, `String`, anything else. -/

inductive ColType where
  | datetimeT
  | integerT
  | floatT
  | stringT
  | otherT
  deriving DecidableEq, Repr

/-- A warehouse table: descriptor (ordered column names and declared types,
from `inspect(connection).get_columns`) plus current rows. -/
structure Table where
  cols : List (String × ColType)
  rows : List (List PyVal)
  deriving DecidableEq, Repr

/-- Accumulate the value of a decimal-digit run; any non-digit fails. -/
def digitsValAux : List Char → Nat → Option Nat
  | [], acc => some acc
  | c :: cs, acc =>
    if 48 ≤ c.toNat ∧ c.toNat ≤ 57 then digitsValAux cs (acc * 10 + (c.toNat - 48))
    else none

/-- Integer-literal parse (optional sign) — the exactly representable core of
what `pd.to_numeric` accepts; anything else coerces to the null marker. -/
def parseIntStr (s : String) : Option Int :=
  match s.toList with
  | [] => none
  | '+' :: cs => if cs.isEmpty then none else (digitsValAux cs 0).map (fun n => (n : Int))
  | '-' :: cs => if cs.isEmpty then none else (digitsValAux cs 0).map (fun n => -(n : Int))
  | cs => (digitsValAux cs 0).map (fun n => (n : Int))

/-- `pd.to_numeric(col, errors="coerce", downcast=…)` on one cell: numbers
pass through (the downcast narrows the storage width, which the embedding
does not distinguish), numeric strings parse, anything unparseable becomes
the null marker.  Float columns use the same dispatch; no claim exercises
fractional values. -/
def toNumericCoerce : PyVal → PyVal
  | .int i => .int i
  | .str s =>
    match parseIntStr s with
    | some i => .int i
    | none => .null
  | _ => .null

/-- `pd.to_datetime(col, errors="coerce").dt.date` on one cell: dates pass
through, `YYYY-MM-DD` strings parse (calendar-invalid dates become `NaT`),
anything else becomes the null marker.  (The pandas epoch interpretation of
raw integers is not modelled; no claim exercises temporal coercion.) -/
def toDatetimeCoerce : PyVal → PyVal
  | .date y m d => .date y m d
  | .str s =>
    (match takeDigits 4 s.toList 0 with
    | none => .null
    | some (y, r1) =>
      match takeLit '-' r1 with
      | none => .null
      | some r2 =>
        match takeDigits 2 r2 0 with
        | none => .null
        | some (m, r3) =>
          match takeLit '-' r3 with
          | none => .null
          | some r4 =>
            match takeDigits 2 r4 0 with
            | none => .null
            | some (d, r5) =>
              if r5 = [] ∧ (NaiveTs.mk y m d 0 0 0).Valid then .date y m d
              else .null)
  | _ => .null

/-- `col.astype(str)` on one cell: Python stringification (`NaN` prints as
`"nan"`, a date as `YYYY-MM-DD`). -/
def astypeStr : PyVal → PyVal
  | .int i => .str (toString i)
  | .str s => .str s
  | .date y m d =>
    .str (String.mk (digitsPad 4 y ++ ('-' :: (digitsPad 2 m ++ ('-' :: digitsPad 2 d)))))
  | .null => .str "nan"

/-- The per-column conversion dispatch of `upload_dataframe_to_table`. -/
def coerceVal : ColType → PyVal → PyVal
  | .datetimeT, v => toDatetimeCoerce v
  | .integerT, v => toNumericCoerce v
  | .floatT, v => toNumericCoerce v
  | .stringT, v => astypeStr v
  | .otherT, v => v

/-- A cell of a row (frames keep rows positionally aligned with columns). -/
def cellAt (r : List PyVal) (i : Nat) : PyVal :=
  r.getD i .null

/-- Index of the first occurrence of a column name. -/
def idxOf (n : String) : List String → Nat
  | [] => 0
  | m :: ms => if n = m then 0 else idxOf n ms + 1

/-- Column-name membership. -/
def memStr (n : String) : List String → Bool
  | [] => false
  | m :: ms => if n = m then true else memStr n ms

/-- Value membership, as used by `Series.isin`. -/
def memVal (v : PyVal) : List PyVal → Bool
  | [] => false
  | w :: ws => if v = w then true else memVal v ws

/-- `df[list(table_columns.keys())]`: reindex the frame to exactly the named
columns in that order; a requested column absent from the frame raises
`KeyError` ("not in index"). -/
def projectFrame (df : Frame) (names : List String) : Except PyErr Frame :=
  if names.all (fun n => memStr n df.cols) then
    .ok ⟨names, df.rows.map (fun r => names.map (fun n => cellAt r (idxOf n df.cols)))⟩
  else .error .keyError

/-- `df[col_name] = f(df[col_name])` for a column present in the frame (in
`upload_dataframe_to_table` the conversion loop runs immediately after the
projection, so every descriptor name is present). -/
def setColumn (df : Frame) (n : String) (f : PyVal → PyVal) : Frame :=
  if memStr n df.cols then
    ⟨df.cols,
      df.rows.map (fun r => r.set (idxOf n df.cols) (f (cellAt r (idxOf n df.cols))))⟩
  else df

/-- The `for col_name, col_type in table_columns.items()` conversion loop. -/
def coerceFrame (tcols : List (String × ColType)) (df : Frame) : Frame :=
  tcols.foldl (fun d nt => setColumn d nt.1 (coerceVal nt.2)) df

/-- `frame[name]`: one column's values. -/
def colValues (df : Frame) (n : String) : List PyVal :=
  df.rows.map (fun r => cellAt r (idxOf n df.cols))

/-- `pd.read_sql_table(table_name, con=connection, schema=…)`: the live
table as a frame. -/
def tableFrame (t : Table) : Frame :=
  ⟨t.cols.map (fun c => c.1), t.rows⟩

/-- `upload_dataframe_to_table(df, table_name)` against live table `t`:
inspect the table's columns, project the frame to them, convert
column-by-column, take the frame's first column as primary key, drop
incoming rows whose key value already occurs in the table
(`df[~df[pk].isin(existing_data[pk])]`), and append the remainder.  The
returned table is the state committed by the `engine.begin()` scope; an
error means the scope raised and committed nothing. -/
def upload_dataframe_to_table (df : Frame) (t : Table) : Except PyErr Table :=
  let tableColumns := t.cols
  match projectFrame df (tableColumns.map (fun c => c.1)) with
  | .error e => .error e
  | .ok df1 =>
    let df2 := coerceFrame tableColumns df1
    match df2.cols with
    | [] => .error .indexError
    | pk :: _ =>
      let existing := colValues (tableFrame t) pk
      let newRows := df2.rows.filter
        (fun r => !(memVal (cellAt r (idxOf pk df2.cols)) existing))
      .ok ⟨t.cols, t.rows ++ newRows⟩

/-- The table state after the `engine.begin()` scope: the new state on
success; nothing committed when the scope raised. -/
def uploadResultState (df : Frame) (t : Table) : Table :=
  match upload_dataframe_to_table df t with
  | .ok t' => t'
  | .error _ => t

/-- The warehouse table's primary-key column values: the values of the first
descriptor column. -/
def tablePkValues (t : Table) : List PyVal :=
  match t.cols with
  | [] => []
  | c :: _ => colValues (tableFrame t) c.1

/-- Modelled from the spec's words (§4.4 Steps 2–3): the incoming frame
projected to descriptor order and coerced, as a direct per-row, per-column
comprehension. -/
def coercedIncomingRows (df : Frame) (tcols : List (String × ColType)) :
    List (List PyVal) :=
  df.rows.map (fun r => tcols.map (fun nt => coerceVal nt.2 (cellAt r (idxOf nt.1 df.cols))))

/-- Modelled from the spec's words (§3 "Merge Result", §4.4 Steps 4–5): the
coerced incoming rows whose primary-key value (first descriptor column, at
position 0) is not among the table's current primary-key values. -/
def mergeResultSpec (df : Frame) (t : Table) : List (List PyVal) :=
  (coercedIncomingRows df t.cols).filter
    (fun r => decide (cellAt r 0 ∉ tablePkValues t))

/-! ## The warehouse writer (`load_utils.write_df_to_warehouse`)

The dataframe payloads do not influence the writer's control flow, so the
trace model records only the attempted writes; `dimFails`/`factFails`
inject the `SQLAlchemyError` a table's write raises. -/

/-- One warehouse write event: a dimension-table merge-write (one
`upload_dataframe_to_table` call) or a fact-table `to_sql` append. -/
inductive WhEvent where
  | dimWrite (table : String)
  | factWrite (table : String)
  deriving DecidableEq, Repr

/-- One write loop of `write_df_to_warehouse` (`table_name =
file.split("/")[0]`, then the write): each attempted write is recorded; a
raising write stops the loop — `upload_dataframe_to_table` logs and
re-raises, the loop has no per-iteration handler, and the enclosing
`except` blocks re-raise. -/
def runWrites (mk : String → WhEvent) (fails : String → Bool) :
    List String → List WhEvent × Bool
  | [] => ([], true)
  | file :: rest =>
    if fails (splitHead '/' file) then ([mk (splitHead '/' file)], false)
    else (mk (splitHead '/' file) :: (runWrites mk fails rest).1,
      (runWrites mk fails rest).2)

/-- `write_df_to_warehouse(read_parquet, …)`: return immediately when both
name lists are empty; otherwise run every dimension-table write in order,
then — only if none of them raised — every fact-table write.  Returns the
ordered trace of attempted writes and whether the function returned
normally. -/
def write_df_to_warehouse (dimTables factTables : List String)
    (dimFails factFails : String → Bool) : List WhEvent × Bool :=
  if dimTables.isEmpty && factTables.isEmpty then ([], true)
  else if (runWrites .dimWrite dimFails dimTables).2 = false then
    ((runWrites .dimWrite dimFails dimTables).1, false)
  else
    ((runWrites .dimWrite dimFails dimTables).1
        ++ (runWrites .factWrite factFails factTables).1,
      (runWrites .factWrite factFails factTables).2)

/-! ### Parsing a field back from its padded rendering -/

theorem char_toNat_ofNat {n : Nat} (h : n < 55296) : (Char.ofNat n).toNat = n := by
  have hv : n.isValidChar := Or.inl h
  rw [Char.ofNat, dif_pos hv]
  rfl

theorem takeDigits_digitsPad (w : Nat) :
    ∀ (n acc : Nat) (rest : List Char), n < 10 ^ w →
      takeDigits w (digitsPad w n ++ rest) acc = some (acc * 10 ^ w + n, rest) := by
  induction w with
  | zero =>
    intro n acc rest hn
    have hz : n = 0 := by omega
    subst hz
    simp [digitsPad, takeDigits]
  | succ w ih =>
    intro n acc rest hn
    have hpow : 0 < 10 ^ w := Nat.pos_pow_of_pos w (by norm_num)
    have hdiv : n / 10 ^ w < 10 := by
      apply Nat.div_lt_of_lt_mul
      calc n < 10 ^ (w + 1) := hn
        _ = 10 ^ w * 10 := by ring
    have hmod : n % 10 ^ w < 10 ^ w := Nat.mod_lt _ hpow
    have h9 : n / 10 ^ w ≤ 9 := Nat.lt_succ_iff.mp hdiv
    have hchar : (Char.ofNat (48 + n / 10 ^ w)).toNat = 48 + n / 10 ^ w :=
      char_toNat_ofNat (by
        calc 48 + n / 10 ^ w ≤ 48 + 9 := Nat.add_le_add_left h9 48
          _ < 55296 := by norm_num)
    simp only [digitsPad, List.cons_append, takeDigits, hchar]
    have hc : 48 ≤ 48 + n / 10 ^ w ∧ 48 + n / 10 ^ w ≤ 57 :=
      ⟨Nat.le_add_right 48 _, by
        calc 48 + n / 10 ^ w ≤ 48 + 9 := Nat.add_le_add_left h9 48
          _ ≤ 57 := by norm_num⟩
    rw [if_pos hc]
    have h48 : 48 + n / 10 ^ w - 48 = n / 10 ^ w := Nat.add_sub_cancel_left 48 _
    rw [h48]
    show takeDigits w (digitsPad w (n % 10 ^ w) ++ rest) (acc * 10 + n / 10 ^ w) = _
    rw [ih (n % 10 ^ w) (acc * 10 + n / 10 ^ w) rest hmod]
    have hdm := Nat.div_add_mod n (10 ^ w)
    congr 2
    calc (acc * 10 + n / 10 ^ w) * 10 ^ w + n % 10 ^ w
        = acc * 10 ^ (w + 1) + (10 ^ w * (n / 10 ^ w) + n % 10 ^ w) := by ring
      _ = acc * 10 ^ (w + 1) + n := by rw [hdm]

theorem takeLit_cons (c : Char) (cs : List Char) : takeLit c (c :: cs) = some cs := by
  simp [takeLit]

/-- C1.  The claim asserts that the marker string written by the orchestrator
(`%Y-%m-%d %H:%M:%S`, no UTC offset) is accepted by the change detector's
parse (`%Y-%m-%d %H:%M:%S%z`, offset required) and round-trips.  The code
refutes this: for every valid timestamp the written string ends immediately
after the seconds field, so the mandatory `%z` directive finds no offset and
the parse raises `ValueError` (`none`) instead of yielding the timestamp. -/
theorem c1_watermark_roundtrip_rejected (t : NaiveTs) (hv : t.Valid) :
    strptimeYmdHMSz (strftimeYmdHMS t) = none := by
  obtain ⟨h1, h2, h3, h4, h5, h6, h7, h8, h9⟩ := hv
  have e4 : (10 : Nat) ^ 4 = 10000 := by norm_num
  have e2 : (10 : Nat) ^ 2 = 100 := by norm_num
  have hy : t.year < 10 ^ 4 := by rw [e4]; omega
  have hmo : t.month < 10 ^ 2 := by rw [e2]; omega
  have hd : t.day < 10 ^ 2 := by
    rw [e2]
    have : daysInMonth t.year t.month ≤ 31 := by
      unfold daysInMonth
      split <;> [split <;> omega; split <;> omega]
    omega
  have hh : t.hour < 10 ^ 2 := by rw [e2]; omega
  have hmi : t.minute < 10 ^ 2 := by rw [e2]; omega
  have hs : t.second < 10 ^ 2 := by rw [e2]; omega
  have d4 : ∀ rest, takeDigits 4 (digitsPad 4 t.year ++ rest) 0 =
      some (t.year, rest) := fun rest => by
    rw [takeDigits_digitsPad 4 t.year 0 rest hy]; norm_num
  have dmo : ∀ rest, takeDigits 2 (digitsPad 2 t.month ++ rest) 0 =
      some (t.month, rest) := fun rest => by
    rw [takeDigits_digitsPad 2 t.month 0 rest hmo]; norm_num
  have dd : ∀ rest, takeDigits 2 (digitsPad 2 t.day ++ rest) 0 =
      some (t.day, rest) := fun rest => by
    rw [takeDigits_digitsPad 2 t.day 0 rest hd]; norm_num
  have dh : ∀ rest, takeDigits 2 (digitsPad 2 t.hour ++ rest) 0 =
      some (t.hour, rest) := fun rest => by
    rw [takeDigits_digitsPad 2 t.hour 0 rest hh]; norm_num
  have dmi : ∀ rest, takeDigits 2 (digitsPad 2 t.minute ++ rest) 0 =
      some (t.minute, rest) := fun rest => by
    rw [takeDigits_digitsPad 2 t.minute 0 rest hmi]; norm_num
  have ds : takeDigits 2 (digitsPad 2 t.second) 0 = some (t.second, []) := by
    have h := takeDigits_digitsPad 2 t.second 0 [] hs
    rw [List.append_nil] at h
    simpa using h
  simp only [strftimeYmdHMS, strptimeYmdHMSz, String.toList, parseOffset]
  simp only [d4, dmo, dd, dh, dmi, ds, takeLit_cons]

/-- C1 witness: at `2025-01-01 12:00:00` the written marker is rejected by the
next run's parse. -/
theorem c1_witness :
    (⟨2025, 1, 1, 12, 0, 0⟩ : NaiveTs).Valid ∧
      strptimeYmdHMSz (strftimeYmdHMS ⟨2025, 1, 1, 12, 0, 0⟩) = none :=
  ⟨by decide, c1_watermark_roundtrip_rejected ⟨2025, 1, 1, 12, 0, 0⟩ (by decide)⟩

/-- C2.  Watermark monotonicity and failure atomicity of the orchestrator:
on a successful run the stored watermark becomes `strftime(now)`, which is
`≥` the previously stored value whenever the wall clock has not gone
backwards since that value was written; on a run that fails before the
marker `put_object`, the stored watermark is exactly the previous value. -/
theorem c2_watermark_monotone_and_atomic (marker : Option String)
    (t0 now : NaiveTs) (fault : Bool)
    (hm : marker = some (strftimeYmdHMS t0)) (hclock : t0.le now) :
    ((load marker fault now).succeeded = true →
      ∃ t1, (load marker fault now).marker = some (strftimeYmdHMS t1) ∧ t0.le t1) ∧
    ((load marker fault now).succeeded = false →
      (load marker fault now).marker = marker) := by
  unfold load
  cases fault <;> simp [hm]
  exact ⟨now, rfl, hclock⟩

/-- C2 witness: a concrete successful run and a concrete failed run. -/
theorem c2_witness :
    ((load (some (strftimeYmdHMS ⟨2024, 1, 1, 0, 0, 0⟩)) false
        ⟨2024, 1, 2, 0, 0, 0⟩).succeeded = true →
      ∃ t1, (load (some (strftimeYmdHMS ⟨2024, 1, 1, 0, 0, 0⟩)) false
        ⟨2024, 1, 2, 0, 0, 0⟩).marker = some (strftimeYmdHMS t1) ∧
        NaiveTs.le ⟨2024, 1, 1, 0, 0, 0⟩ t1) ∧
    ((load (some (strftimeYmdHMS ⟨2024, 1, 1, 0, 0, 0⟩)) false
        ⟨2024, 1, 2, 0, 0, 0⟩).succeeded = false →
      (load (some (strftimeYmdHMS ⟨2024, 1, 1, 0, 0, 0⟩)) false
        ⟨2024, 1, 2, 0, 0, 0⟩).marker = some (strftimeYmdHMS ⟨2024, 1, 1, 0, 0, 0⟩)) :=
  c2_watermark_monotone_and_atomic _ _ _ _ rfl (by
    unfold NaiveTs.le
    exact Prod.Lex.right _ (Prod.Lex.right _ (Prod.Lex.left _ _ (by norm_num))))

/-! ## Change-detector lemmas -/

theorem dimTableNames_eq_map (wm : AwareTs) (contents : List S3Object) :
    dimTableNames wm contents = (dimParquetFiles wm contents).map (splitHead '.') := by
  simp [dimTableNames, dimParquetFiles, List.map_map, Function.comp]

theorem factTableNames_eq_map (wm : AwareTs) (contents : List S3Object) :
    factTableNames wm contents = (factParquetFiles wm contents).map (splitHead '.') := by
  simp [factTableNames, factParquetFiles, List.map_map, Function.comp]

theorem fetchFrames_ok (decode : String → Frame) (contents : List S3Object)
    (keys : List String) :
    ∀ dfs : List Frame, fetchFrames decode contents keys = .ok dfs →
      dfs.length = keys.length ∧
      ∀ i key, keys.get? i = some key → ∃ payload,
        getObjectPayload contents key = some payload ∧
        dfs.get? i = some (decode payload) := by
  induction keys with
  | nil =>
    intro dfs h
    simp only [fetchFrames, Except.ok.injEq] at h
    subst h
    exact ⟨rfl, fun i key hk => by simp at hk⟩
  | cons key keys ih =>
    intro dfs h
    unfold fetchFrames at h
    cases hp : getObjectPayload contents key with
    | none => rw [hp] at h; simp at h
    | some payload =>
      rw [hp] at h
      cases hf : fetchFrames decode contents keys with
      | error e => rw [hf] at h; simp at h
      | ok rest =>
        rw [hf] at h
        simp only [Except.ok.injEq] at h
        subst h
        obtain ⟨hlen, hpt⟩ := ih rest hf
        refine ⟨by simp [hlen], ?_⟩
        intro i k hk
        cases i with
        | zero =>
          simp only [List.get?] at hk
          injection hk with hk
          subst hk
          exact ⟨payload, hp, by simp⟩
        | succ n =>
          simp only [List.get?] at hk ⊢
          exact hpt n k hk

/-- C6.  The claim says that with watermark `None` and a non-empty listing,
`read_parquets_from_s3` returns four empty collections without raising.  The
code instead reaches `datetime.strptime(last_load, …)` with `last_load =
None` before the `if last_load` guard in the filter, which raises
`TypeError`; the exception is logged and re-raised. -/
theorem c6_first_run_none_raises (decode : String → Frame)
    (contents : List S3Object) (h : contents ≠ []) :
    read_parquets_from_s3 decode contents none = .error .typeError := by
  cases contents with
  | nil => exact absurd rfl h
  | cons o rest => rfl

/-- C6 witness: a one-object listing with watermark `None` raises. -/
theorem c6_witness :
    ([⟨"dim_currency.parquet", ⟨⟨2024, 6, 1, 0, 0, 0⟩, 0⟩, "PQ1"⟩] :
        List S3Object) ≠ [] ∧
      read_parquets_from_s3 (fun p => ⟨[p], []⟩)
        [⟨"dim_currency.parquet", ⟨⟨2024, 6, 1, 0, 0, 0⟩, 0⟩, "PQ1"⟩] none =
        .error .typeError :=
  ⟨by decide, c6_first_run_none_raises _ _ (by decide)⟩

/-- C5 counterexample.  A staged key containing both the `dim_` and the
`fact_` substring passes both comprehensions, so it appears in BOTH
classified lists, refuting "appears in exactly one of the two lists" for
keys matching a convention. -/
theorem c5_counterexample :
    strContains "dim_fact_totals.parquet" "dim_" = true ∧
    strContains "dim_fact_totals.parquet" "fact_" = true ∧
    dimParquetFiles ⟨⟨2024, 1, 1, 0, 0, 0⟩, 0⟩
        [⟨"dim_fact_totals.parquet", ⟨⟨2024, 6, 1, 0, 0, 0⟩, 0⟩, "PQ"⟩] =
      ["dim_fact_totals.parquet"] ∧
    factParquetFiles ⟨⟨2024, 1, 1, 0, 0, 0⟩, 0⟩
        [⟨"dim_fact_totals.parquet", ⟨⟨2024, 6, 1, 0, 0, 0⟩, 0⟩, "PQ"⟩] =
      ["dim_fact_totals.parquet"] ∧
    dimTableNames ⟨⟨2024, 1, 1, 0, 0, 0⟩, 0⟩
        [⟨"dim_fact_totals.parquet", ⟨⟨2024, 6, 1, 0, 0, 0⟩, 0⟩, "PQ"⟩] =
      ["dim_fact_totals"] ∧
    factTableNames ⟨⟨2024, 1, 1, 0, 0, 0⟩, 0⟩
        [⟨"dim_fact_totals.parquet", ⟨⟨2024, 6, 1, 0, 0, 0⟩, 0⟩, "PQ"⟩] =
      ["dim_fact_totals"] := by
  decide

/-- C5 (amended).  Classification of the keys passing the watermark/marker
filter is by substring convention: a key containing `dim_` is in the
dimension list, a key containing `fact_` is in the fact list, a key
containing neither is in neither — so a key matching exactly one convention
appears in exactly that list, while a key matching both appears in both. -/
theorem c5_partition_by_convention (wm : AwareTs) (contents : List S3Object)
    (key : String) (hk : key ∈ (newFiles wm contents).map (fun o => o.key)) :
    (strContains key "dim_" = true → key ∈ dimParquetFiles wm contents) ∧
    (strContains key "fact_" = true → key ∈ factParquetFiles wm contents) ∧
    (strContains key "dim_" = false → key ∉ dimParquetFiles wm contents) ∧
    (strContains key "fact_" = false → key ∉ factParquetFiles wm contents) := by
  obtain ⟨o, ho, rfl⟩ := List.mem_map.mp hk
  refine ⟨?_, ?_, ?_, ?_⟩
  · intro hdim
    exact List.mem_map.mpr ⟨o, List.mem_filter.mpr ⟨ho, hdim⟩, rfl⟩
  · intro hfact
    exact List.mem_map.mpr ⟨o, List.mem_filter.mpr ⟨ho, hfact⟩, rfl⟩
  · intro hnd hmem
    obtain ⟨o', ho', hkey⟩ := List.mem_map.mp hmem
    have := (List.mem_filter.mp ho').2
    rw [hkey] at this
    rw [this] at hnd
    exact Bool.true_eq_false.mp hnd
  · intro hnf hmem
    obtain ⟨o', ho', hkey⟩ := List.mem_map.mp hmem
    have := (List.mem_filter.mp ho').2
    rw [hkey] at this
    rw [this] at hnf
    exact Bool.true_eq_false.mp hnf

/-- C5 witness: a key matching only the `dim_` convention lands in the
dimension list and not in the fact list. -/
theorem c5_witness :
    (strContains "dim_currency.parquet" "dim_" = true →
      "dim_currency.parquet" ∈ dimParquetFiles ⟨⟨2024, 1, 1, 0, 0, 0⟩, 0⟩
        [⟨"dim_currency.parquet", ⟨⟨2024, 6, 1, 0, 0, 0⟩, 0⟩, "PQ1"⟩]) ∧
    (strContains "dim_currency.parquet" "fact_" = true →
      "dim_currency.parquet" ∈ factParquetFiles ⟨⟨2024, 1, 1, 0, 0, 0⟩, 0⟩
        [⟨"dim_currency.parquet", ⟨⟨2024, 6, 1, 0, 0, 0⟩, 0⟩, "PQ1"⟩]) ∧
    (strContains "dim_currency.parquet" "dim_" = false →
      "dim_currency.parquet" ∉ dimParquetFiles ⟨⟨2024, 1, 1, 0, 0, 0⟩, 0⟩
        [⟨"dim_currency.parquet", ⟨⟨2024, 6, 1, 0, 0, 0⟩, 0⟩, "PQ1"⟩]) ∧
    (strContains "dim_currency.parquet" "fact_" = false →
      "dim_currency.parquet" ∉ factParquetFiles ⟨⟨2024, 1, 1, 0, 0, 0⟩, 0⟩
        [⟨"dim_currency.parquet", ⟨⟨2024, 6, 1, 0, 0, 0⟩, 0⟩, "PQ1"⟩]) :=
  c5_partition_by_convention ⟨⟨2024, 1, 1, 0, 0, 0⟩, 0⟩
    [⟨"dim_currency.parquet", ⟨⟨2024, 6, 1, 0, 0, 0⟩, 0⟩, "PQ1"⟩]
    "dim_currency.parquet" (by decide)

/-- C9.  The four returned collections are parallel: the name lists and
frame lists have equal lengths, and the frame at position `i` is the decoded
payload fetched for the key whose dot-truncated name sits at position `i`
of the corresponding name list. -/
theorem c9_parallel_list_correspondence (decode : String → Frame)
    (contents : List S3Object) (lastLoad : Option String)
    (dn fn : List String) (dd fd : List Frame)
    (hok : read_parquets_from_s3 decode contents lastLoad =
      .ok (dn, fn, dd, fd)) :
    dn.length = dd.length ∧ fn.length = fd.length ∧
    (∀ i, i < dn.length → ∃ key payload,
      getObjectPayload contents key = some payload ∧
      dn.get? i = some (splitHead '.' key) ∧
      dd.get? i = some (decode payload)) ∧
    (∀ i, i < fn.length → ∃ key payload,
      getObjectPayload contents key = some payload ∧
      fn.get? i = some (splitHead '.' key) ∧
      fd.get? i = some (decode payload)) := by
  unfold read_parquets_from_s3 at hok
  split at hok
  · simp only [Except.ok.injEq, Prod.mk.injEq] at hok
    obtain ⟨h1, h2, h3, h4⟩ := hok
    subst h1; subst h2; subst h3; subst h4
    exact ⟨rfl, rfl, fun i hi => absurd hi (Nat.not_lt_zero i),
      fun i hi => absurd hi (Nat.not_lt_zero i)⟩
  · split at hok
    · simp at hok
    · split at hok
      · simp at hok
      next wm hP =>
        split at hok
        · simp only [Except.ok.injEq, Prod.mk.injEq] at hok
          obtain ⟨h1, h2, h3, h4⟩ := hok
          subst h1; subst h2; subst h3; subst h4
          exact ⟨rfl, rfl, fun i hi => absurd hi (Nat.not_lt_zero i),
            fun i hi => absurd hi (Nat.not_lt_zero i)⟩
        · split at hok
          · simp at hok
          next dimDfs hD =>
            split at hok
            · simp at hok
            next factDfs hF =>
              simp only [Except.ok.injEq, Prod.mk.injEq] at hok
              obtain ⟨h1, h2, h3, h4⟩ := hok
              subst h1; subst h2; subst h3; subst h4
              obtain ⟨hdlen, hdpt⟩ := fetchFrames_ok decode contents _ _ hD
              obtain ⟨hflen, hfpt⟩ := fetchFrames_ok decode contents _ _ hF
              refine ⟨?_, ?_, ?_, ?_⟩
              · rw [dimTableNames_eq_map, List.length_map, hdlen]
              · rw [factTableNames_eq_map, List.length_map, hflen]
              · intro i hi
                rw [dimTableNames_eq_map, List.length_map] at hi
                have hkey := List.get?_eq_get hi
                obtain ⟨payload, hp, hdf⟩ :=
                  hdpt i ((dimParquetFiles wm contents).get ⟨i, hi⟩) hkey
                refine ⟨(dimParquetFiles wm contents).get ⟨i, hi⟩, payload, hp, ?_, hdf⟩
                rw [dimTableNames_eq_map, List.get?_map, hkey]
                rfl
              · intro i hi
                rw [factTableNames_eq_map, List.length_map] at hi
                have hkey := List.get?_eq_get hi
                obtain ⟨payload, hp, hdf⟩ :=
                  hfpt i ((factParquetFiles wm contents).get ⟨i, hi⟩) hkey
                refine ⟨(factParquetFiles wm contents).get ⟨i, hi⟩, payload, hp, ?_, hdf⟩
                rw [factTableNames_eq_map, List.get?_map, hkey]
                rfl

/-- C9 witness: a two-object listing (one dimension file, one fact file)
with a parseable watermark. -/
theorem c9_witness :
    (["dim_currency"] : List String).length = ([⟨["PQ1"], []⟩] : List Frame).length ∧
    (["fact_sales"] : List String).length = ([⟨["PQ2"], []⟩] : List Frame).length ∧
    (∀ i, i < (["dim_currency"] : List String).length → ∃ key payload,
      getObjectPayload
        [⟨"dim_currency.parquet", ⟨⟨2024, 6, 1, 0, 0, 0⟩, 0⟩, "PQ1"⟩,
         ⟨"fact_sales.parquet", ⟨⟨2024, 6, 2, 0, 0, 0⟩, 0⟩, "PQ2"⟩] key =
          some payload ∧
      (["dim_currency"] : List String).get? i = some (splitHead '.' key) ∧
      ([⟨["PQ1"], []⟩] : List Frame).get? i =
        some ((fun p => (⟨[p], []⟩ : Frame)) payload)) ∧
    (∀ i, i < (["fact_sales"] : List String).length → ∃ key payload,
      getObjectPayload
        [⟨"dim_currency.parquet", ⟨⟨2024, 6, 1, 0, 0, 0⟩, 0⟩, "PQ1"⟩,
         ⟨"fact_sales.parquet", ⟨⟨2024, 6, 2, 0, 0, 0⟩, 0⟩, "PQ2"⟩] key =
          some payload ∧
      (["fact_sales"] : List String).get? i = some (splitHead '.' key) ∧
      ([⟨["PQ2"], []⟩] : List Frame).get? i =
        some ((fun p => (⟨[p], []⟩ : Frame)) payload)) :=
  c9_parallel_list_correspondence (fun p => ⟨[p], []⟩)
    [⟨"dim_currency.parquet", ⟨⟨2024, 6, 1, 0, 0, 0⟩, 0⟩, "PQ1"⟩,
     ⟨"fact_sales.parquet", ⟨⟨2024, 6, 2, 0, 0, 0⟩, 0⟩, "PQ2"⟩]
    (some "2024-01-01 00:00:00+0000")
    ["dim_currency"] ["fact_sales"] [⟨["PQ1"], []⟩] [⟨["PQ2"], []⟩] rfl

/-! ## Warehouse-writer lemmas -/

theorem runWrites_events (mk : String → WhEvent) (fails : String → Bool)
    (files : List String) :
    ∀ e ∈ (runWrites mk fails files).1, ∃ t, e = mk t := by
  induction files with
  | nil => intro e he; simp [runWrites] at he
  | cons file rest ih =>
    intro e he
    simp only [runWrites] at he
    split at he
    · simp at he
      exact ⟨_, he⟩
    · simp only [List.mem_cons] at he
      rcases he with he | he
      · exact ⟨_, he⟩
      · exact ih e he

theorem runWrites_fault (mk : String → WhEvent) (fails : String → Bool)
    (pre : List String) (t : String) (post : List String)
    (hpre : ∀ u ∈ pre, fails (splitHead '/' u) = false)
    (ht : fails (splitHead '/' t) = true) :
    runWrites mk fails (pre ++ t :: post) =
      ((pre ++ [t]).map (fun u => mk (splitHead '/' u)), false) := by
  induction pre with
  | nil => simp [runWrites, ht]
  | cons u us ih =>
    have hu : fails (splitHead '/' u) = false := hpre u (List.mem_cons_self u us)
    simp only [List.cons_append, runWrites, hu, List.append_eq,
      Bool.false_eq_true, if_false]
    rw [ih (fun v hv => hpre v (List.mem_cons_of_mem u hv))]
    simp

/-- C7 counterexample.  With two pending dimension tables and a warehouse
fault on the first, the second table's write is never attempted and the
function raises — refuting "logs the fault and continues to the remaining
tables". -/
theorem c7_counterexample :
    write_df_to_warehouse ["dim_a", "dim_b"] [] (fun t => t = "dim_a")
        (fun _ => false) =
      ([WhEvent.dimWrite "dim_a"], false) ∧
    WhEvent.dimWrite "dim_b" ∉
      (write_df_to_warehouse ["dim_a", "dim_b"] [] (fun t => t = "dim_a")
        (fun _ => false)).1 := by
  decide

/-- C7 (amended).  A warehouse-level fault on one dimension table is logged
and re-raised, aborting the run: the trace stops at the faulting table and
none of the remaining dimension or fact tables is attempted. -/
theorem c7_fault_aborts_remaining_tables (pre : List String) (t : String)
    (post facts : List String) (dimFails factFails : String → Bool)
    (hpre : ∀ u ∈ pre, dimFails (splitHead '/' u) = false)
    (ht : dimFails (splitHead '/' t) = true) :
    write_df_to_warehouse (pre ++ t :: post) facts dimFails factFails =
      ((pre ++ [t]).map (fun u => WhEvent.dimWrite (splitHead '/' u)), false) := by
  have hr := runWrites_fault WhEvent.dimWrite dimFails pre t post hpre ht
  have hne : (pre ++ t :: post).isEmpty = false := by cases pre <;> rfl
  unfold write_df_to_warehouse
  rw [hne, hr]
  simp

/-- C7 witness: fault on the middle of three dimension tables, with a fact
table also pending. -/
theorem c7_witness :
    write_df_to_warehouse (["dim_a"] ++ "dim_b" :: ["dim_c"]) ["fact_x"]
      (fun s => s = "dim_b") (fun _ => false) =
      ((["dim_a"] ++ ["dim_b"]).map (fun u => WhEvent.dimWrite (splitHead '/' u)),
        false) :=
  c7_fault_aborts_remaining_tables ["dim_a"] "dim_b" ["dim_c"] ["fact_x"]
    (fun s => s = "dim_b") (fun _ => false) (by decide) (by decide)

/-- C8.  The writer's trace decomposes as all dimension-write events followed
by all fact-write events: every dimension write (including a faulting one,
which aborts the run before any fact write) precedes every fact write. -/
theorem c8_dimension_writes_before_fact_writes (dimTables factTables : List String)
    (dimFails factFails : String → Bool) :
    ∃ dimEvs factEvs,
      (write_df_to_warehouse dimTables factTables dimFails factFails).1 =
        dimEvs ++ factEvs ∧
      (∀ e ∈ dimEvs, ∃ t, e = WhEvent.dimWrite t) ∧
      (∀ e ∈ factEvs, ∃ t, e = WhEvent.factWrite t) := by
  unfold write_df_to_warehouse
  split
  · exact ⟨[], [], rfl, by simp, by simp⟩
  · split
    · exact ⟨(runWrites .dimWrite dimFails dimTables).1, [], by simp,
        runWrites_events _ _ _, by simp⟩
    · exact ⟨(runWrites .dimWrite dimFails dimTables).1,
        (runWrites .factWrite factFails factTables).1, rfl,
        runWrites_events _ _ _, runWrites_events _ _ _⟩

/-! ## Reconciler lemmas

The operational pipeline of `upload_dataframe_to_table` (projection, then a
fold of in-place column conversions, then the `isin` filter) is related to
the spec-level `mergeResultSpec` comprehension. -/

theorem memStr_iff (n : String) (l : List String) : memStr n l = true ↔ n ∈ l := by
  induction l with
  | nil => simp [memStr]
  | cons m ms ih =>
    unfold memStr
    by_cases h : n = m <;> simp [h, ih]

theorem memVal_iff (v : PyVal) (l : List PyVal) : memVal v l = true ↔ v ∈ l := by
  induction l with
  | nil => simp [memVal]
  | cons w ws ih =>
    unfold memVal
    by_cases h : v = w <;> simp [h, ih]

theorem not_memVal (v : PyVal) (l : List PyVal) :
    (!memVal v l) = decide ¬(v ∈ l) := by
  cases hm : memVal v l
  · have : ¬v ∈ l := fun hin => by
      rw [(memVal_iff v l).mpr hin] at hm
      cases hm
    simp [this]
  · have : v ∈ l := (memVal_iff v l).mp hm
    simp [this]

theorem idxOf_cons_self (n : String) (l : List String) : idxOf n (n :: l) = 0 := by
  simp [idxOf]

theorem idxOf_cons_ne (n m : String) (l : List String) (h : n ≠ m) :
    idxOf n (m :: l) = idxOf n l + 1 := by
  simp [idxOf, h]

/-- The conversion loop maps each row through the fold of positional
in-place updates. -/
theorem coerceFrame_rows (tcols : List (String × ColType)) (names : List String) :
    ∀ rows : List (List PyVal), (∀ nt ∈ tcols, memStr nt.1 names = true) →
      coerceFrame tcols ⟨names, rows⟩ =
        ⟨names, rows.map (fun r => tcols.foldl
          (fun r nt => r.set (idxOf nt.1 names)
            (coerceVal nt.2 (cellAt r (idxOf nt.1 names)))) r)⟩ := by
  induction tcols with
  | nil =>
    intro rows _
    simp [coerceFrame]
  | cons nt ts ih =>
    intro rows hsub
    have hmem : memStr nt.1 names = true := hsub nt (List.mem_cons_self nt ts)
    have step : coerceFrame (nt :: ts) ⟨names, rows⟩ =
        coerceFrame ts (setColumn ⟨names, rows⟩ nt.1 (coerceVal nt.2)) := rfl
    rw [step]
    unfold setColumn
    simp only [hmem, if_true]
    rw [ih _ (fun p hp => hsub p (List.mem_cons_of_mem nt hp))]
    simp [List.map_map, Function.comp]

/-- Updates at strictly later positions commute past the head cell. -/
theorem foldSet_cons (names : List String) (n0 : String)
    (ts : List (String × ColType)) (hne : ∀ nt ∈ ts, nt.1 ≠ n0) :
    ∀ (c : PyVal) (r : List PyVal),
      ts.foldl (fun r nt => r.set (idxOf nt.1 (n0 :: names))
          (coerceVal nt.2 (cellAt r (idxOf nt.1 (n0 :: names))))) (c :: r) =
        c :: ts.foldl (fun r nt => r.set (idxOf nt.1 names)
          (coerceVal nt.2 (cellAt r (idxOf nt.1 names)))) r := by
  induction ts with
  | nil => intro c r; rfl
  | cons nt ts ih =>
    intro c r
    have hidx : idxOf nt.1 (n0 :: names) = idxOf nt.1 names + 1 :=
      idxOf_cons_ne nt.1 n0 names (hne nt (List.mem_cons_self nt ts))
    simp only [List.foldl_cons, hidx]
    rw [show cellAt (c :: r) (idxOf nt.1 names + 1) = cellAt r (idxOf nt.1 names)
        from rfl]
    rw [show (c :: r).set (idxOf nt.1 names + 1)
          (coerceVal nt.2 (cellAt r (idxOf nt.1 names))) =
        c :: r.set (idxOf nt.1 names)
          (coerceVal nt.2 (cellAt r (idxOf nt.1 names))) from rfl]
    exact ih (fun p hp => hne p (List.mem_cons_of_mem nt hp)) c _

/-- With pairwise-distinct column names, the fold of in-place conversions
computes the positional `zipWith`. -/
theorem rowFold_eq_zipWith (tcols : List (String × ColType)) :
    ∀ r : List PyVal, r.length = tcols.length →
      (tcols.map (fun c => c.1)).Nodup →
      tcols.foldl (fun r nt => r.set (idxOf nt.1 (tcols.map (fun c => c.1)))
          (coerceVal nt.2 (cellAt r (idxOf nt.1 (tcols.map (fun c => c.1)))))) r =
        List.zipWith (fun nt v => coerceVal nt.2 v) tcols r := by
  induction tcols with
  | nil =>
    intro r hlen _
    rw [List.length_nil, List.length_eq_zero] at hlen
    subst hlen
    rfl
  | cons nt ts ih =>
    intro r hlen hnd
    cases r with
    | nil => simp at hlen
    | cons v r' =>
      simp only [List.map_cons] at hnd
      have hnotin : nt.1 ∉ ts.map (fun c => c.1) := (List.nodup_cons.mp hnd).1
      have hnd' : (ts.map (fun c => c.1)).Nodup := (List.nodup_cons.mp hnd).2
      have hne : ∀ p ∈ ts, p.1 ≠ nt.1 := by
        intro p hp hpe
        exact hnotin (hpe ▸ List.mem_map_of_mem (fun c => c.1) hp)
      simp only [List.foldl_cons, List.map_cons, idxOf_cons_self]
      rw [show cellAt (v :: r') 0 = v from rfl]
      rw [show (v :: r').set 0 (coerceVal nt.2 v) = coerceVal nt.2 v :: r' from rfl]
      rw [foldSet_cons (ts.map (fun c => c.1)) nt.1 ts hne]
      rw [ih r' (by simpa using hlen) hnd']
      rfl

/-- `zipWith` of the conversions against a projected row is the direct
comprehension. -/
theorem zipWith_coerce_proj (tcols : List (String × ColType)) (vals : String → PyVal) :
    List.zipWith (fun nt v => coerceVal nt.2 v) tcols
        ((tcols.map (fun c => c.1)).map vals) =
      tcols.map (fun nt => coerceVal nt.2 (vals nt.1)) := by
  induction tcols with
  | nil => rfl
  | cons nt ts ih => simp only [List.map_cons, List.zipWith_cons_cons, ih]

/-- The composed row transformation of `upload_dataframe_to_table`
(projection then conversion fold) equals the spec-level comprehension. -/
theorem rowFold_proj (tcols : List (String × ColType)) (vals : String → PyVal)
    (hnd : (tcols.map (fun c => c.1)).Nodup) :
    tcols.foldl (fun r nt => r.set (idxOf nt.1 (tcols.map (fun c => c.1)))
        (coerceVal nt.2 (cellAt r (idxOf nt.1 (tcols.map (fun c => c.1))))))
      ((tcols.map (fun c => c.1)).map vals) =
      tcols.map (fun nt => coerceVal nt.2 (vals nt.1)) := by
  rw [rowFold_eq_zipWith tcols _ (by simp) hnd, zipWith_coerce_proj]

/-- A projection target missing from the incoming frame fails the reindex
with `KeyError`. -/
theorem upload_keyError (df : Frame) (t : Table)
    (hfail : ((t.cols.map (fun c => c.1)).all fun n => memStr n df.cols) = false) :
    upload_dataframe_to_table df t = .error .keyError := by
  simp [upload_dataframe_to_table, projectFrame, hfail]

/-- A table with no descriptor columns fails `df.columns[0]` with
`IndexError`. -/
theorem upload_emptyCols (df : Frame) (t : Table) (h : t.cols = []) :
    upload_dataframe_to_table df t = .error .indexError := by
  simp [upload_dataframe_to_table, projectFrame, coerceFrame, h]

/-- On the success path, `upload_dataframe_to_table` appends exactly the
spec-level Merge Result to the table. -/
theorem upload_eq_spec (df : Frame) (t : Table)
    (hnd : (t.cols.map (fun c => c.1)).Nodup)
    (hproj : ∀ n ∈ t.cols.map (fun c => c.1), memStr n df.cols = true)
    (hne : t.cols ≠ []) :
    upload_dataframe_to_table df t = .ok ⟨t.cols, t.rows ++ mergeResultSpec df t⟩ := by
  obtain ⟨tcols, trows⟩ := t
  cases tcols with
  | nil => exact absurd rfl hne
  | cons c0 cs =>
    have hsub : ∀ nt ∈ c0 :: cs, memStr nt.1 ((c0 :: cs).map (fun c => c.1)) = true :=
      fun nt hnt => (memStr_iff _ _).mpr (List.mem_map_of_mem _ hnt)
    have hall : (((c0 :: cs).map (fun c => c.1)).all fun n => memStr n df.cols) = true :=
      List.all_eq_true.mpr hproj
    have hP : projectFrame df ((c0 :: cs).map (fun c => c.1)) =
        .ok ⟨(c0 :: cs).map (fun c => c.1),
          df.rows.map (fun r => ((c0 :: cs).map (fun c => c.1)).map
            (fun n => cellAt r (idxOf n df.cols)))⟩ := by
      unfold projectFrame
      rw [if_pos hall]
    have hC := coerceFrame_rows (c0 :: cs) ((c0 :: cs).map (fun c => c.1))
      (df.rows.map (fun r => ((c0 :: cs).map (fun c => c.1)).map
        (fun n => cellAt r (idxOf n df.cols)))) hsub
    have hRows : (df.rows.map (fun r => ((c0 :: cs).map (fun c => c.1)).map
          (fun n => cellAt r (idxOf n df.cols)))).map
        (fun r => (c0 :: cs).foldl
          (fun r nt => r.set (idxOf nt.1 ((c0 :: cs).map (fun c => c.1)))
            (coerceVal nt.2 (cellAt r (idxOf nt.1 ((c0 :: cs).map (fun c => c.1)))))) r) =
        coercedIncomingRows df (c0 :: cs) := by
      rw [List.map_map]
      unfold coercedIncomingRows
      refine congrArg (fun f => List.map f df.rows) ?_
      funext r
      exact rowFold_proj (c0 :: cs) (fun n => cellAt r (idxOf n df.cols)) hnd
    simp only [upload_dataframe_to_table, hP, hC, hRows]
    simp only [List.map_cons, idxOf_cons_self, mergeResultSpec, tablePkValues,
      tableFrame, colValues, coercedIncomingRows, not_memVal]

/-- Success-path inversion: a committed upload has appended exactly the
Merge Result, the projection found every descriptor column, and the
descriptor was non-empty. -/
theorem upload_ok_eq (df : Frame) (t t1 : Table)
    (hnd : (t.cols.map (fun c => c.1)).Nodup)
    (hok : upload_dataframe_to_table df t = .ok t1) :
    t1 = ⟨t.cols, t.rows ++ mergeResultSpec df t⟩ ∧
    (∀ n ∈ t.cols.map (fun c => c.1), memStr n df.cols = true) ∧
    t.cols ≠ [] := by
  by_cases hall : ((t.cols.map (fun c => c.1)).all fun n => memStr n df.cols) = true
  · by_cases hne : t.cols = []
    · rw [upload_emptyCols df t hne] at hok
      simp at hok
    · have hX := upload_eq_spec df t hnd (List.all_eq_true.mp hall) hne
      rw [hX] at hok
      simp only [Except.ok.injEq] at hok
      exact ⟨hok.symm, List.all_eq_true.mp hall, hne⟩
  · have hfalse : ((t.cols.map (fun c => c.1)).all fun n => memStr n df.cols) = false := by
      cases hb : ((t.cols.map (fun c => c.1)).all fun n => memStr n df.cols) with
      | false => rfl
      | true => exact absurd hb hall
    rw [upload_keyError df t hfalse] at hok
    simp at hok

theorem tablePkValues_cons (c0 : String × ColType) (cs : List (String × ColType))
    (rows : List (List PyVal)) :
    tablePkValues ⟨c0 :: cs, rows⟩ = rows.map (fun r => cellAt r 0) := by
  simp [tablePkValues, colValues, tableFrame, List.map_cons, idxOf_cons_self]

/-- C4.  The rows committed by a successful `upload_dataframe_to_table` are
exactly the previous rows followed by the Merge Result: the incoming rows —
projected to descriptor order and coerced — whose primary-key value (first
descriptor column) does not occur among the table's current primary-key
values. -/
theorem c4_merge_result_rows (df : Frame) (t t1 : Table)
    (hnd : (t.cols.map (fun c => c.1)).Nodup)
    (hok : upload_dataframe_to_table df t = .ok t1) :
    t1.rows = t.rows ++ mergeResultSpec df t ∧ t1.cols = t.cols := by
  obtain ⟨ht1, -, -⟩ := upload_ok_eq df t t1 hnd hok
  subst ht1
  exact ⟨rfl, rfl⟩

/-- C4 witness: the spec's scenario — warehouse `currency` table holding
`[1,"GBP"]`, incoming frame `[[1,"GBP"],[2,"USD"]]`; the Merge Result is
`[[2,"USD"]]` and the final table is `[[1,"GBP"],[2,"USD"]]`. -/
theorem c4_witness :
    ((⟨[("currency_id", ColType.integerT), ("currency_code", ColType.stringT)],
        [[.int 1, .str "GBP"], [.int 2, .str "USD"]]⟩ : Table).rows =
      (⟨[("currency_id", ColType.integerT), ("currency_code", ColType.stringT)],
        [[.int 1, .str "GBP"]]⟩ : Table).rows ++
        mergeResultSpec
          ⟨["currency_id", "currency_code"],
            [[.int 1, .str "GBP"], [.int 2, .str "USD"]]⟩
          ⟨[("currency_id", ColType.integerT), ("currency_code", ColType.stringT)],
            [[.int 1, .str "GBP"]]⟩ ∧
      (⟨[("currency_id", ColType.integerT), ("currency_code", ColType.stringT)],
        [[.int 1, .str "GBP"], [.int 2, .str "USD"]]⟩ : Table).cols =
      (⟨[("currency_id", ColType.integerT), ("currency_code", ColType.stringT)],
        [[.int 1, .str "GBP"]]⟩ : Table).cols) ∧
    mergeResultSpec
      ⟨["currency_id", "currency_code"], [[.int 1, .str "GBP"], [.int 2, .str "USD"]]⟩
      ⟨[("currency_id", ColType.integerT), ("currency_code", ColType.stringT)],
        [[.int 1, .str "GBP"]]⟩ = [[.int 2, .str "USD"]] :=
  ⟨c4_merge_result_rows
      ⟨["currency_id", "currency_code"], [[.int 1, .str "GBP"], [.int 2, .str "USD"]]⟩
      ⟨[("currency_id", ColType.integerT), ("currency_code", ColType.stringT)],
        [[.int 1, .str "GBP"]]⟩
      ⟨[("currency_id", ColType.integerT), ("currency_code", ColType.stringT)],
        [[.int 1, .str "GBP"], [.int 2, .str "USD"]]⟩
      (by decide) rfl,
    by decide⟩

/-- C3 counterexample.  An incoming frame whose own primary-key column
repeats a value (`5` twice) passes the `isin` filter wholesale against an
empty (hence duplicate-free) table, and both rows are appended: the
warehouse primary-key column ends with duplicates.  The code never
deduplicates within the incoming frame. -/
theorem c3_counterexample :
    (tablePkValues ⟨[("currency_id", ColType.integerT),
        ("currency_code", ColType.stringT)], []⟩).Nodup ∧
    uploadResultState
        ⟨["currency_id", "currency_code"], [[.int 5, .str "A"], [.int 5, .str "B"]]⟩
        ⟨[("currency_id", ColType.integerT), ("currency_code", ColType.stringT)], []⟩ =
      ⟨[("currency_id", ColType.integerT), ("currency_code", ColType.stringT)],
        [[.int 5, .str "A"], [.int 5, .str "B"]]⟩ ∧
    ¬(tablePkValues ⟨[("currency_id", ColType.integerT),
        ("currency_code", ColType.stringT)],
        [[.int 5, .str "A"], [.int 5, .str "B"]]⟩).Nodup :=
  ⟨by decide, rfl, by decide⟩

/-- C3 (amended).  If the table's primary-key column has no duplicates AND
the incoming frame's primary-key values (after projection and coercion)
have no duplicates, then after a successful upload the table's primary-key
column still has no duplicates — and re-uploading the same frame commits
the table unchanged, so the invariant also survives processing the same
staged frame twice. -/
theorem c3_dedup_invariant (df : Frame) (t t1 : Table)
    (hnd : (t.cols.map (fun c => c.1)).Nodup)
    (hpk : (tablePkValues t).Nodup)
    (hin : ((coercedIncomingRows df t.cols).map (fun r => cellAt r 0)).Nodup)
    (hok : upload_dataframe_to_table df t = .ok t1) :
    (tablePkValues t1).Nodup ∧ upload_dataframe_to_table df t1 = .ok t1 := by
  obtain ⟨ht1, hprojc, hnec⟩ := upload_ok_eq df t t1 hnd hok
  obtain ⟨tcols, trows⟩ := t
  cases tcols with
  | nil => exact absurd rfl hnec
  | cons c0 cs =>
    subst ht1
    have hpk1 : tablePkValues ⟨c0 :: cs, trows ++ mergeResultSpec df ⟨c0 :: cs, trows⟩⟩ =
        tablePkValues ⟨c0 :: cs, trows⟩ ++
          (mergeResultSpec df ⟨c0 :: cs, trows⟩).map (fun r => cellAt r 0) := by
      rw [tablePkValues_cons, tablePkValues_cons, List.map_append]
    have hmergePk : ∀ v ∈ (mergeResultSpec df ⟨c0 :: cs, trows⟩).map (fun r => cellAt r 0),
        v ∉ tablePkValues ⟨c0 :: cs, trows⟩ := by
      intro v hv
      obtain ⟨r, hr, rfl⟩ := List.mem_map.mp hv
      have := (List.mem_filter.mp hr).2
      exact of_decide_eq_true this
    constructor
    · rw [hpk1]
      refine List.Nodup.append hpk ?_ ?_
      · have hsub : List.Sublist
            ((mergeResultSpec df ⟨c0 :: cs, trows⟩).map (fun r => cellAt r 0))
            ((coercedIncomingRows df (c0 :: cs)).map (fun r => cellAt r 0)) :=
          List.Sublist.map _ (List.filter_sublist _)
        exact List.Nodup.sublist hsub hin
      · exact fun a ha hb => hmergePk a hb ha
    · have h2 := upload_eq_spec df ⟨c0 :: cs, trows ++ mergeResultSpec df ⟨c0 :: cs, trows⟩⟩
        hnd hprojc (by simp)
      rw [h2]
      have hm2 : mergeResultSpec df
          ⟨c0 :: cs, trows ++ mergeResultSpec df ⟨c0 :: cs, trows⟩⟩ = [] := by
        rw [show mergeResultSpec df
              ⟨c0 :: cs, trows ++ mergeResultSpec df ⟨c0 :: cs, trows⟩⟩ =
            (coercedIncomingRows df (c0 :: cs)).filter
              (fun r => decide (cellAt r 0 ∉
                tablePkValues ⟨c0 :: cs, trows ++ mergeResultSpec df ⟨c0 :: cs, trows⟩⟩))
            from rfl]
        rw [List.filter_eq_nil_iff]
        intro r hr
        simp only [decide_eq_true_eq, not_not]
        rw [hpk1, List.mem_append]
        by_cases hmem : cellAt r 0 ∈ tablePkValues ⟨c0 :: cs, trows⟩
        · exact Or.inl hmem
        · refine Or.inr (List.mem_map_of_mem _ ?_)
          exact List.mem_filter.mpr ⟨hr, by simp [hmem]⟩
      rw [hm2, List.append_nil]

/-- C3 witness: the currency scenario table after its first upload, uploaded
again — primary keys stay duplicate-free and the table is unchanged. -/
theorem c3_witness :
    (tablePkValues ⟨[("currency_id", ColType.integerT),
        ("currency_code", ColType.stringT)],
        [[.int 1, .str "GBP"], [.int 2, .str "USD"]]⟩).Nodup ∧
    upload_dataframe_to_table
        ⟨["currency_id", "currency_code"], [[.int 1, .str "GBP"], [.int 2, .str "USD"]]⟩
        ⟨[("currency_id", ColType.integerT), ("currency_code", ColType.stringT)],
          [[.int 1, .str "GBP"], [.int 2, .str "USD"]]⟩ =
      .ok ⟨[("currency_id", ColType.integerT), ("currency_code", ColType.stringT)],
        [[.int 1, .str "GBP"], [.int 2, .str "USD"]]⟩ :=
  c3_dedup_invariant
    ⟨["currency_id", "currency_code"], [[.int 1, .str "GBP"], [.int 2, .str "USD"]]⟩
    ⟨[("currency_id", ColType.integerT), ("currency_code", ColType.stringT)],
      [[.int 1, .str "GBP"]]⟩
    ⟨[("currency_id", ColType.integerT), ("currency_code", ColType.stringT)],
      [[.int 1, .str "GBP"], [.int 2, .str "USD"]]⟩
    (by decide) (by decide) (by decide) rfl

/-- C10.  An incoming frame lacking a column named in the live table
descriptor fails the projection `df = df[list(table_columns.keys())]` with
`KeyError`; the transaction commits nothing, the table is unchanged, and no
null-filling happens. -/
theorem c10_missing_descriptor_column (df : Frame) (t : Table) (col : String)
    (hc : col ∈ t.cols.map (fun c => c.1)) (hmiss : memStr col df.cols = false) :
    upload_dataframe_to_table df t = .error .keyError ∧
    uploadResultState df t = t := by
  have hfail : ((t.cols.map (fun c => c.1)).all fun n => memStr n df.cols) = false := by
    cases hb : ((t.cols.map (fun c => c.1)).all fun n => memStr n df.cols) with
    | false => rfl
    | true =>
      have := List.all_eq_true.mp hb col hc
      rw [hmiss] at this
      exact absurd this (by simp)
  refine ⟨upload_keyError df t hfail, ?_⟩
  unfold uploadResultState
  rw [upload_keyError df t hfail]

/-- C10 witness: an incoming frame with only `currency_id` against a
two-column `currency` descriptor. -/
theorem c10_witness :
    upload_dataframe_to_table ⟨["currency_id"], [[.int 2]]⟩
        ⟨[("currency_id", ColType.integerT), ("currency_code", ColType.stringT)],
          [[.int 1, .str "GBP"]]⟩ = .error .keyError ∧
    uploadResultState ⟨["currency_id"], [[.int 2]]⟩
        ⟨[("currency_id", ColType.integerT), ("currency_code", ColType.stringT)],
          [[.int 1, .str "GBP"]]⟩ =
      ⟨[("currency_id", ColType.integerT), ("currency_code", ColType.stringT)],
        [[.int 1, .str "GBP"]]⟩ :=
  c10_missing_descriptor_column ⟨["currency_id"], [[.int 2]]⟩
    ⟨[("currency_id", ColType.integerT), ("currency_code", ColType.stringT)],
      [[.int 1, .str "GBP"]]⟩
    "currency_code" (by decide) (by decide)

end ETL
